/-
Verification of the web2docx collection-to-document converter (`app.py`).

The development shallowly embeds the pure decision logic of the script:
  * `detect_product_links` — the multi-strategy product-link heuristic;
  * `get_product_links`    — fetch wrapper (fetch outcomes modelled explicitly);
  * the post-render phase of `process_collection` — truncation, task
    numbering, fan-in of concurrent task outcomes, failure preview,
    sorting by sequence index, and the merge / transcode steps.

External collaborators (HTTP client, BeautifulSoup byte-level parsing, the
ConvertAPI backend, Streamlit display calls) are modelled as explicit
parameters or as fields of result records; side-effecting display calls
(`st.error`, `st.warning`, the failure expander) become boolean / record
components of the embedded functions' results.

String utilities from `urllib.parse` (`urlparse`, `urljoin`, `parse_qs`)
are modelled on the subset of URL shapes the theorems exercise: absolute
`scheme://host/path?query#fragment` URLs, scheme-relative, root-relative,
query/fragment-only and plain relative references without dot segments,
and `parse_qs` without percent-decoding.
-/
import Mathlib

namespace Web2Docx

/-! ### Character-list string utilities -/

/-- Split a character list at the first occurrence of the separator `sep`:
returns the part before it and, when `sep` occurs, the part after it. -/
def splitFirstChars (sep : List Char) : List Char → List Char × Option (List Char)
  | [] => ([], none)
  | c :: rest =>
    if sep.isPrefixOf (c :: rest) then ([], some ((c :: rest).drop sep.length))
    else
      let p := splitFirstChars sep rest
      (c :: p.1, p.2)

/-- Split a string at the first occurrence of `sep`. -/
def splitFirst (s sep : String) : String × Option String :=
  let p := splitFirstChars sep.toList s.toList
  (String.mk p.1, p.2.map String.mk)

/-- `pat` occurs as a contiguous run inside `s` (Python's `pat in s`). -/
def isSubChars : List Char → List Char → Bool
  | pat, [] => pat.isEmpty
  | pat, s@(_ :: rest) => pat.isPrefixOf s || isSubChars pat rest

/-- Python's substring test `pat in s` on strings. -/
def strContains (s pat : String) : Bool := isSubChars pat.toList s.toList

/-- `pre` is a leading run of `s` (Python's `str.startswith`). -/
def strStartsWith (s pre : String) : Bool := pre.toList.isPrefixOf s.toList

/-- Python's `str.lower` (character-wise lowering). -/
def strToLower (s : String) : String := String.mk (s.toList.map Char.toLower)

/-- Drop the first `n` characters of a string. -/
def strDrop (s : String) (n : Nat) : String := String.mk (s.toList.drop n)

/-- Code-point lexicographic comparison of character lists — the order
Python's `sorted` uses on `str` values. -/
def charListLe : List Char → List Char → Bool
  | [], _ => true
  | _ :: _, [] => false
  | a :: as, b :: bs => decide (a < b) || (a = b && charListLe as bs)

/-- Python's `<=` on strings: code-point lexicographic order. -/
def strLe (a b : String) : Prop := charListLe a.toList b.toList = true

instance : DecidableRel strLe := fun a b =>
  if h : charListLe a.toList b.toList = true then .isTrue h else .isFalse h

/-- Split a character list on every occurrence of a single character
(Python's `str.split(sep)` on one-character separators). -/
def splitAllChars (sep : Char) : List Char → List (List Char)
  | [] => [[]]
  | c :: rest =>
    if c = sep then [] :: splitAllChars sep rest
    else
      match splitAllChars sep rest with
      | [] => [[c]]
      | h :: t => (c :: h) :: t

/-! ### URL model (`urllib.parse` subset) -/

/-- Result of `urllib.parse.urlparse` restricted to the components the
script reads (`scheme`, `netloc`, `path`, `query`, `fragment`). -/
structure UrlParts where
  scheme : String
  netloc : String
  path : String
  query : String
  fragment : String
deriving Repr, DecidableEq

/-- Characters that terminate the network-location component. -/
def endsNetloc (c : Char) : Bool := c = '/' || c = '?'

/-- Split `scheme://`-less remainder into path and query. -/
def splitPathQuery (s : String) : String × String :=
  let p := splitFirst s "?"
  (p.1, p.2.getD "")

/-- Model of `urllib.parse.urlparse` for the URL shapes exercised here. -/
def urlparse (s : String) : UrlParts :=
  let f := splitFirst s "#"
  let noFrag := f.1
  let frag := f.2.getD ""
  match splitFirst noFrag "://" with
  | (scheme, some rest) =>
    let netloc := String.mk (rest.toList.takeWhile (fun c => !endsNetloc c))
    let tail := String.mk (rest.toList.dropWhile (fun c => !endsNetloc c))
    let pq := splitPathQuery tail
    ⟨scheme, netloc, pq.1, pq.2, frag⟩
  | (_, none) =>
    if strStartsWith noFrag "//" then
      let rest := strDrop noFrag 2
      let netloc := String.mk (rest.toList.takeWhile (fun c => !endsNetloc c))
      let tail := String.mk (rest.toList.dropWhile (fun c => !endsNetloc c))
      let pq := splitPathQuery tail
      ⟨"", netloc, pq.1, pq.2, frag⟩
    else
      let pq := splitPathQuery noFrag
      ⟨"", "", pq.1, pq.2, frag⟩

/-- Drop a trailing `#fragment` from a URL string. -/
def stripFragment (s : String) : String := (splitFirst s "#").1

/-- A reference carries its own scheme (contains `://`). -/
def hasScheme (ref : String) : Bool := (splitFirst ref "://").2.isSome

/-- The directory part of a path: everything up to and including the last
slash (empty when the path has no slash). -/
def dirPart (path : String) : String :=
  String.mk ((path.toList.reverse.dropWhile (fun c => c ≠ '/')).reverse)

/-- Model of `urllib.parse.urljoin` for the reference shapes exercised
here: absolute references, scheme-relative (`//h/p`), root-relative
(`/p`), fragment-only, query-only and plain relative references without
dot segments. -/
def urljoin (base ref : String) : String :=
  if ref = "" then base
  else if hasScheme ref then ref
  else
    let b := urlparse base
    let schemeHost := b.scheme ++ "://" ++ b.netloc
    if strStartsWith ref "//" then b.scheme ++ ":" ++ ref
    else if strStartsWith ref "/" then schemeHost ++ ref
    else if strStartsWith ref "#" then stripFragment base ++ ref
    else if strStartsWith ref "?" then schemeHost ++ b.path ++ ref
    else schemeHost ++ dirPart b.path ++ ref

/-- Keys of `urllib.parse.parse_qs(query)` with the default
`keep_blank_values=False`: `name=value` pairs split on `&`, a pair without
`=` or with an empty value is dropped (percent-decoding not modelled). -/
def queryKeys (query : String) : List String :=
  (splitAllChars '&' query.toList).filterMap fun part =>
    match splitFirstChars ['='] part with
    | (_, none) => none
    | (k, some v) => if v.isEmpty then none else some (String.mk k)

/-! ### Parsed-document model (BeautifulSoup view) -/

/-- An `<a href=...>` element as the script inspects it: its `href`
attribute, whether `link.find('img')` finds an image inside it, and its
full markup `str(link)`. -/
structure Anchor where
  href : String
  hasImg : Bool
  markup : String
deriving Repr, DecidableEq

/-- A `div`/`li`/`article` element carrying a `class` attribute, with the
string form `str(x)` of that attribute and the anchors found inside it. -/
structure Container where
  classAttr : String
  anchors : List Anchor
deriving Repr, DecidableEq

/-- The parsed listing page: `soup.find_all('a', href=True)` in document
order, and the `div`/`li`/`article` elements that carry a class
attribute, in document order. -/
structure Soup where
  anchors : List Anchor
  containers : List Container
deriving Repr, DecidableEq

/-! ### `detect_product_links` -/

/-- Strategy 1 path/file substrings (`product_patterns` in `app.py`). -/
def product_patterns : List String :=
  ["/products/", "/product/", "/item/", "/goods/",
   "item_detail.php", "product_detail.php", "goods_view.php", "shop_detail.php"]

/-- Strategy 2 query-parameter names (`korean_patterns` in `app.py`). -/
def korean_patterns : List String :=
  ["bno", "no", "idx", "product_no", "goods_no", "item_no"]

/-- Keywords looked for in container class attributes. -/
def container_keywords : List String := ["product", "item", "goods", "상품"]

/-- The first loop of `detect_product_links`: for each anchor, resolve the
href, skip foreign-domain links, keep the link when a product pattern is a
substring of the full URL or a Korean query parameter is present. -/
def patternLinks (url : String) (soup : Soup) : List String :=
  let domain := (urlparse url).netloc
  soup.anchors.filterMap fun link =>
    let full_url := urljoin url link.href
    let parsed_link := urlparse full_url
    if parsed_link.netloc ≠ "" && parsed_link.netloc ≠ domain then none
    else if product_patterns.any (fun pat => strContains full_url pat) then some full_url
    else if korean_patterns.any (fun param => (queryKeys parsed_link.query).contains param)
      then some full_url
    else none

/-- First fallback loop: anchors containing an image whose markup mentions
product/item vocabulary, kept when same-domain. -/
def imageFallbackLinks (url : String) (soup : Soup) : List String :=
  let domain := (urlparse url).netloc
  soup.anchors.filterMap fun link =>
    if link.hasImg &&
        (strContains (strToLower link.markup) "product" || strContains (strToLower link.markup) "item")
    then
      let full_url := urljoin url link.href
      if (urlparse full_url).netloc = domain then some full_url else none
    else none

/-- Second fallback loop: anchors inside `div`/`li`/`article` containers
whose class attribute mentions product/item vocabulary; kept when same
domain and not the listing page's own URL. -/
def containerFallbackLinks (url : String) (soup : Soup) : List String :=
  let domain := (urlparse url).netloc
  (soup.containers.filter fun c =>
      container_keywords.any (fun kw => strContains (strToLower c.classAttr) kw)).flatMap
    fun c =>
      c.anchors.filterMap fun link =>
        let full_url := urljoin url link.href
        if (urlparse full_url).netloc = domain && full_url ≠ url then some full_url else none

/-- Python's `sorted(list(someSet))` applied to the collected links: the
distinct elements in lexicographic order. -/
def pySortedSet (l : List String) : List String :=
  List.insertionSort strLe l.dedup

/-- `detect_product_links(url, soup)` from `app.py`: the pattern strategy
set; when it is empty, the union of the two fallback loops instead;
finally `sorted(list(product_links))`. -/
def detect_product_links (url : String) (soup : Soup) : List String :=
  if patternLinks url soup = [] then
    pySortedSet (imageFallbackLinks url soup ++ containerFallbackLinks url soup)
  else
    pySortedSet (patternLinks url soup)

/-! ### `get_product_links` -/

/-- The HTTP response as `get_product_links` reads it: status code, the
`Content-Type` header (`headers.get('Content-Type', '')`), the encoding
`requests` derived from the headers (`response.encoding`, `none` when
undeclared), and the raw body bytes (`response.content`, an abstract type
consumed only by the HTML parser). -/
structure HttpResponse (β : Type) where
  status : Nat
  contentType : String
  encodingHeader : Option String
  content : β

/-- Outcome of `requests.get`: a response, or a `requests.RequestException`
(network failure). -/
inductive FetchOutcome (β : Type) where
  | ok (r : HttpResponse β)
  | err (msg : String)

/-- What `get_product_links` produces: whether the `st.error` fetch-failure
message was displayed, the encoding selected for `response.text` (a dead
value — parsing uses the raw bytes), and the returned candidate list (the
Python function's actual return value). -/
structure ExtractResult where
  fetchErrorShown : Bool
  chosenEncoding : Option String
  links : List String
deriving Repr, DecidableEq

/-- `get_product_links(url)` from `app.py`, with the HTTP fetch made an
explicit argument and BeautifulSoup's byte-level parsing abstracted as
`parse`. `raise_for_status` raises for status codes in `[400, 600)`; the
surrounding `except requests.RequestException` displays an error and
returns the empty list. On success the euc-kr / utf-8 selection is
computed (it only ever affects `response.text`), the soup is built from
the raw bytes, and `detect_product_links` produces the result. -/
def get_product_links {β : Type} (parse : β → Soup) (url : String)
    (fetch : FetchOutcome β) : ExtractResult :=
  match fetch with
  | .err _ => ⟨true, none, []⟩
  | .ok r =>
    if 400 ≤ r.status ∧ r.status < 600 then ⟨true, none, []⟩
    else
      let encoding :=
        if strContains (strToLower r.contentType) "euc-kr" then some "euc-kr"
        else if r.encodingHeader = none then some "utf-8"
        else r.encodingHeader
      let soup := parse r.content
      ⟨false, encoding, detect_product_links url soup⟩

/-! ### Conversion pipeline (`process_collection`) -/

/-- The truncation step of `process_collection`: cut the candidate list to
the first `max_products` entries and record whether the `st.warning`
truncation notice was emitted. -/
structure TruncResult where
  links : List String
  notice : Bool
deriving Repr, DecidableEq

/-- `if len(product_links) > max_products: st.warning(...);
product_links = product_links[:max_products]`. -/
def truncateLinks (product_links : List String) (max_products : Nat) : TruncResult :=
  if product_links.length > max_products then ⟨product_links.take max_products, true⟩
  else ⟨product_links, false⟩

/-- Python's `enumerate(xs, n)`. -/
def enumerateFrom {α : Type} (n : Nat) : List α → List (Nat × α)
  | [] => []
  | x :: xs => (n, x) :: enumerateFrom (n + 1) xs

/-- The fan-out of `process_collection`: one task per truncated candidate,
numbered from 1 (`enumerate(product_links, 1)`). -/
def dispatchTasks (links : List String) : List (Nat × String) := enumerateFrom 1 links

/-- Outcome of one `convert_url_to_pdf` task: the success dict
`{'success': True, 'path': ..., 'index': ...}` or the failure dict
`{'success': False, 'error': ..., 'index': ...}` (the URL field is never
read downstream and is omitted). -/
inductive TaskOutcome where
  | success (index : Nat) (path : String)
  | failure (index : Nat) (error : String)
deriving Repr, DecidableEq

/-- The sequence index a task outcome carries. -/
def TaskOutcome.index : TaskOutcome → Nat
  | .success i _ => i
  | .failure i _ => i

/-- The failure line `f"Product {result['index']}: {result['error']}"`. -/
def failMsg (index : Nat) (error : String) : String :=
  "Product " ++ toString index ++ ": " ++ error

/-- One iteration of the `as_completed` loop: append a success to
`pdf_files` or a failure message to `failed_conversions`. -/
def collectStep (acc : List (Nat × String) × List String) (r : TaskOutcome) :
    List (Nat × String) × List String :=
  match r with
  | .success i p => (acc.1 ++ [(i, p)], acc.2)
  | .failure i e => (acc.1, acc.2 ++ [failMsg i e])

/-- The whole `as_completed` fan-in loop over the task outcomes in their
completion order: the `pdf_files` and `failed_conversions` lists. -/
def collectResults (arrivals : List TaskOutcome) : List (Nat × String) × List String :=
  arrivals.foldl collectStep ([], [])

/-- The failure expander of `process_collection`: which failure lines are
printed (`failed_conversions[:10]`) and the count named by the
`"... and {n} more"` summary line when one is printed. -/
structure FailureReport where
  shown : List String
  moreCount : Option Nat
deriving Repr, DecidableEq

/-- `if failed_conversions:` show the first ten failure lines and, past
ten, the `"... and {len(failed_conversions) - 10} more"` line. -/
def failureReport (failed_conversions : List String) : Option FailureReport :=
  if failed_conversions.isEmpty then none
  else
    some ⟨failed_conversions.take 10,
      if failed_conversions.length > 10 then some (failed_conversions.length - 10) else none⟩

/-- `pdf_files.sort(key=lambda x: x[0])`: stable sort of the success pairs
by sequence index. -/
def sortIndexed (pdf_files : List (Nat × String)) : List (Nat × String) :=
  List.insertionSort (fun a b => a.1 ≤ b.1) pdf_files

/-- How a run of `process_collection` ends after the render phase:
`(None, None)` with the no-PDFs error, `(None, None)` after a failed merge
or transcode, or the final bytes with their format tag. -/
inductive RunOutcome where
  | noArtifacts
  | mergeFailed
  | transcodeFailed
  | done (format : String)
deriving Repr, DecidableEq

/-- Observable trace of the post-render phase: how the run ended, the
`Files` argument the remote merge was invoked with (when it was), and
whether the PDF→DOCX transcode was invoked. -/
structure RunTrace where
  outcome : RunOutcome
  mergeCalledWith : Option (List String)
  transcodeCalled : Bool
deriving Repr, DecidableEq

/-- The post-render phase of `process_collection` (lines 209–246 of
`app.py`), with the two remote ConvertAPI calls abstracted as success
predicates: `mergeOk paths` tells whether `merge_pdfs` succeeds on the
given `Files` list and `docxOk` whether `convert_pdf_to_docx` succeeds.
If `pdf_files` is empty the run errors out before any merge; otherwise the
successes are sorted by index, their paths merged, and the result
optionally transcoded when the requested format is not `pdf`. -/
def finishBatch (mergeOk : List String → Bool) (docxOk : Bool) (output_format : String)
    (arrivals : List TaskOutcome) : RunTrace :=
  let pdf_files := (collectResults arrivals).1
  if pdf_files.isEmpty then ⟨.noArtifacts, none, false⟩
  else
    let pdf_paths := (sortIndexed pdf_files).map Prod.snd
    if mergeOk pdf_paths then
      if output_format = "pdf" then ⟨.done "pdf", some pdf_paths, false⟩
      else if docxOk then ⟨.done "docx", some pdf_paths, true⟩
      else ⟨.transcodeFailed, some pdf_paths, true⟩
    else ⟨.mergeFailed, some pdf_paths, false⟩

/-! ### Helper lemmas -/

/-- The success view of one outcome: the `(index, path)` pair. -/
def successPair : TaskOutcome → Option (Nat × String)
  | .success i p => some (i, p)
  | .failure _ _ => none

/-- The failure view of one outcome: the formatted failure line. -/
def failEntry : TaskOutcome → Option String
  | .success _ _ => none
  | .failure i e => some (failMsg i e)

theorem foldl_collectStep (l : List TaskOutcome) (acc : List (Nat × String) × List String) :
    l.foldl collectStep acc = (acc.1 ++ l.filterMap successPair, acc.2 ++ l.filterMap failEntry) := by
  induction l generalizing acc with
  | nil => simp
  | cons r rest ih =>
    cases r with
    | success i p => simp [collectStep, successPair, failEntry, ih]
    | failure i e => simp [collectStep, successPair, failEntry, ih]

theorem collectResults_eq (l : List TaskOutcome) :
    collectResults l = (l.filterMap successPair, l.filterMap failEntry) := by
  simpa using foldl_collectStep l ([], [])

instance : IsTotal (Nat × String) (fun a b => a.1 ≤ b.1) :=
  ⟨fun a b => Nat.le_total a.1 b.1⟩

instance : IsTrans (Nat × String) (fun a b => a.1 ≤ b.1) :=
  ⟨fun _ _ _ h h' => Nat.le_trans h h'⟩

instance : IsAntisymm (Nat × String) (fun a b => a.1 < b.1) :=
  ⟨fun a _ h h' => absurd (Nat.lt_trans h h') (Nat.lt_irrefl a.1)⟩

theorem sortIndexed_perm (l : List (Nat × String)) : List.Perm (sortIndexed l) l :=
  List.perm_insertionSort _ l

theorem sortIndexed_sorted (l : List (Nat × String)) :
    List.Sorted (fun a b => a.1 ≤ b.1) (sortIndexed l) :=
  List.sorted_insertionSort _ l

theorem pairwise_lt_of_le_nodup (l : List (Nat × String))
    (hle : l.Pairwise (fun a b => a.1 ≤ b.1)) (hn : (l.map Prod.fst).Nodup) :
    l.Pairwise (fun a b => a.1 < b.1) := by
  have hne : l.Pairwise (fun a b : Nat × String => a.1 ≠ b.1) := List.pairwise_map.mp hn
  exact (hle.and hne).imp fun h => Nat.lt_of_le_of_ne h.1 h.2

theorem sortIndexed_eq_of_perm {l₁ l₂ : List (Nat × String)} (hp : List.Perm l₁ l₂)
    (hn : (l₁.map Prod.fst).Nodup) : sortIndexed l₁ = sortIndexed l₂ := by
  have hperm : List.Perm (sortIndexed l₁) (sortIndexed l₂) :=
    ((sortIndexed_perm l₁).trans hp).trans (sortIndexed_perm l₂).symm
  have hn₂ : (l₂.map Prod.fst).Nodup := (hp.map Prod.fst).nodup_iff.mp hn
  have hs₁ := pairwise_lt_of_le_nodup _ (sortIndexed_sorted l₁)
    (((sortIndexed_perm l₁).map Prod.fst).nodup_iff.mpr hn)
  have hs₂ := pairwise_lt_of_le_nodup _ (sortIndexed_sorted l₂)
    (((sortIndexed_perm l₂).map Prod.fst).nodup_iff.mpr hn₂)
  exact List.eq_of_perm_of_sorted hperm hs₁ hs₂

theorem enumerateFrom_map_fst {α : Type} (n : Nat) (l : List α) :
    (enumerateFrom n l).map Prod.fst = List.range' n l.length := by
  induction l generalizing n with
  | nil => simp [enumerateFrom]
  | cons x xs ih => simp [enumerateFrom, List.range'_succ, ih]

theorem enumerateFrom_map_snd {α : Type} (n : Nat) (l : List α) :
    (enumerateFrom n l).map Prod.snd = l := by
  induction l generalizing n with
  | nil => simp [enumerateFrom]
  | cons x xs ih => simp [enumerateFrom, ih]

theorem enumerateFrom_length {α : Type} (n : Nat) (l : List α) :
    (enumerateFrom n l).length = l.length := by
  induction l generalizing n with
  | nil => simp [enumerateFrom]
  | cons x xs ih => simp [enumerateFrom, ih]

theorem mem_pySortedSet {x : String} {l : List String} : x ∈ pySortedSet l ↔ x ∈ l := by
  unfold pySortedSet
  rw [List.mem_insertionSort, List.mem_dedup]

theorem nodup_pySortedSet (l : List String) : (pySortedSet l).Nodup :=
  ((List.perm_insertionSort _ _).nodup_iff).mpr (List.nodup_dedup l)

/-- The ordered path list handed to the remote merge operation: the
success pairs sorted by sequence index, projected onto their paths. -/
def mergeInput (arrivals : List TaskOutcome) : List String :=
  (sortIndexed (collectResults arrivals).1).map Prod.snd

theorem finishBatch_of_empty (mergeOk : List String → Bool) (docxOk : Bool)
    (fmt : String) (arrivals : List TaskOutcome) (h : (collectResults arrivals).1 = []) :
    finishBatch mergeOk docxOk fmt arrivals = ⟨.noArtifacts, none, false⟩ := by
  simp [finishBatch, h]

theorem finishBatch_merge_some (mergeOk : List String → Bool) (docxOk : Bool)
    (fmt : String) (arrivals : List TaskOutcome) (h : (collectResults arrivals).1 ≠ []) :
    (finishBatch mergeOk docxOk fmt arrivals).mergeCalledWith = some (mergeInput arrivals) := by
  simp only [finishBatch, mergeInput, List.isEmpty_iff]
  rw [if_neg h]
  split_ifs <;> rfl

theorem finishBatch_outcome_ne_of_ne (mergeOk : List String → Bool) (docxOk : Bool)
    (fmt : String) (arrivals : List TaskOutcome) (h : (collectResults arrivals).1 ≠ []) :
    (finishBatch mergeOk docxOk fmt arrivals).outcome ≠ .noArtifacts := by
  simp only [finishBatch, List.isEmpty_iff]
  rw [if_neg h]
  split_ifs <;> simp

theorem successPair_index (o : TaskOutcome) (x : Nat × String) (h : successPair o = some x) :
    x.1 = o.index := by
  cases o with
  | success i p => simp [successPair] at h; simp [TaskOutcome.index, ← h]
  | failure i e => simp [successPair] at h

theorem map_fst_filterMap_sublist (g : Nat × String → Option (Nat × String))
    (hg : ∀ t x, g t = some x → x.1 = t.1) (l : List (Nat × String)) :
    List.Sublist ((l.filterMap g).map Prod.fst) (l.map Prod.fst) := by
  induction l with
  | nil => simp
  | cons t rest ih =>
    cases hgt : g t with
    | none =>
      simp only [List.filterMap_cons, hgt, List.map_cons]
      exact ih.trans (List.sublist_cons_self _ _)
    | some x =>
      simp only [List.filterMap_cons, hgt, List.map_cons]
      rw [hg t x hgt]
      exact ih.cons₂ _

/-! ### Claim theorems -/

/-- C1: for every batch of render-task outcomes and every task completion
order, the path list handed to the merge step is the success pairs sorted
by sequence index ascending, so the assembler's input is independent of
the order in which concurrent tasks finish. Completion orders are
arbitrary permutations of the outcomes of the tasks dispatched over the
candidate list (whose sequence indices are their 1-based positions). -/
theorem merge_input_independent_of_completion_order
    (mergeOk : List String → Bool) (docxOk : Bool) (fmt : String)
    (links : List String) (outcome : Nat × String → TaskOutcome)
    (hidx : ∀ t, (outcome t).index = t.1)
    (a₁ a₂ : List TaskOutcome)
    (h₁ : List.Perm a₁ ((dispatchTasks links).map outcome))
    (h₂ : List.Perm a₂ ((dispatchTasks links).map outcome)) :
    (finishBatch mergeOk docxOk fmt a₁).mergeCalledWith =
      (finishBatch mergeOk docxOk fmt a₂).mergeCalledWith ∧
    List.Sorted (fun a b => a.1 ≤ b.1) (sortIndexed (collectResults a₁).1) ∧
    ((collectResults a₁).1 ≠ [] →
      (finishBatch mergeOk docxOk fmt a₁).mergeCalledWith = some (mergeInput a₁)) := by
  have hsp₁ : (collectResults a₁).1 = a₁.filterMap successPair := by rw [collectResults_eq]
  have hsp₂ : (collectResults a₂).1 = a₂.filterMap successPair := by rw [collectResults_eq]
  have hperm12 : List.Perm a₁ a₂ := h₁.trans h₂.symm
  have hpermS : List.Perm (a₁.filterMap successPair) (a₂.filterMap successPair) :=
    hperm12.filterMap _
  have hnod : ((a₁.filterMap successPair).map Prod.fst).Nodup := by
    have hA : List.Perm (a₁.filterMap successPair)
        ((dispatchTasks links).filterMap (fun t => successPair (outcome t))) := by
      have hp := h₁.filterMap successPair
      rwa [List.filterMap_map] at hp
    have hsub : List.Sublist
        (((dispatchTasks links).filterMap (fun t => successPair (outcome t))).map Prod.fst)
        ((dispatchTasks links).map Prod.fst) :=
      map_fst_filterMap_sublist _ (fun t x hx => (successPair_index _ _ hx).trans (hidx t)) _
    have htasks : ((dispatchTasks links).map Prod.fst).Nodup := by
      rw [dispatchTasks, enumerateFrom_map_fst]
      exact List.nodup_range' _ _
    exact ((hA.map Prod.fst).nodup_iff).mpr (hsub.nodup htasks)
  refine ⟨?_, sortIndexed_sorted _, fun h => finishBatch_merge_some mergeOk docxOk fmt a₁ h⟩
  by_cases hemp : (collectResults a₁).1 = []
  · have hemp₂ : (collectResults a₂).1 = [] := by
      rw [hsp₂]
      rw [hsp₁] at hemp
      exact ((hemp ▸ hpermS).symm).eq_nil
    rw [finishBatch_of_empty mergeOk docxOk fmt a₁ hemp,
      finishBatch_of_empty mergeOk docxOk fmt a₂ hemp₂]
  · have hemp₂ : (collectResults a₂).1 ≠ [] := by
      rw [hsp₂]
      rw [hsp₁] at hemp
      intro hc
      exact hemp ((hc ▸ hpermS.symm).symm).eq_nil
    rw [finishBatch_merge_some mergeOk docxOk fmt a₁ hemp,
      finishBatch_merge_some mergeOk docxOk fmt a₂ hemp₂]
    have : sortIndexed (collectResults a₁).1 = sortIndexed (collectResults a₂).1 := by
      rw [hsp₁, hsp₂]
      exact sortIndexed_eq_of_perm hpermS hnod
    rw [mergeInput, mergeInput, this]

/-- C1 witness: two completion orders of the same two-task batch hand the
merge step the same path list. -/
theorem merge_input_independent_witness :
    (finishBatch (fun _ => true) true "pdf"
        [.success 2 "2_product.pdf", .success 1 "1_product.pdf"]).mergeCalledWith =
      (finishBatch (fun _ => true) true "pdf"
        [.success 1 "1_product.pdf", .success 2 "2_product.pdf"]).mergeCalledWith :=
  (merge_input_independent_of_completion_order (fun _ => true) true "pdf"
    ["u1", "u2"] (fun t => TaskOutcome.success t.1 (toString t.1 ++ "_product.pdf"))
    (fun _ => rfl) _ _ (by decide) (by decide)).1

/-- C2: the run ends with the no-artifacts error exactly when the success
list is empty; with zero successes neither merge nor transcode is invoked,
and with at least one success the merge is invoked. -/
theorem no_artifacts_iff_zero_successes (mergeOk : List String → Bool) (docxOk : Bool)
    (fmt : String) (arrivals : List TaskOutcome) :
    ((finishBatch mergeOk docxOk fmt arrivals).outcome = .noArtifacts ↔
      (collectResults arrivals).1 = []) ∧
    ((finishBatch mergeOk docxOk fmt arrivals).mergeCalledWith = none ↔
      (collectResults arrivals).1 = []) ∧
    ((collectResults arrivals).1 = [] →
      (finishBatch mergeOk docxOk fmt arrivals).transcodeCalled = false) := by
  by_cases h : (collectResults arrivals).1 = []
  · rw [finishBatch_of_empty mergeOk docxOk fmt arrivals h]
    simp [h]
  · have h1 := finishBatch_outcome_ne_of_ne mergeOk docxOk fmt arrivals h
    have h2 := finishBatch_merge_some mergeOk docxOk fmt arrivals h
    refine ⟨⟨fun hc => absurd hc h1, fun hc => absurd hc h⟩,
      ⟨fun hc => ?_, fun hc => absurd hc h⟩, fun hc => absurd hc h⟩
    rw [h2] at hc
    exact absurd hc (by simp)

/-- C2 witness: a batch whose only task failed ends with the no-artifacts
error. -/
theorem no_artifacts_iff_zero_successes_witness :
    (finishBatch (fun _ => true) true "docx" [.failure 1 "timeout"]).outcome =
      .noArtifacts :=
  (no_artifacts_iff_zero_successes (fun _ => true) true "docx"
    [.failure 1 "timeout"]).1.mpr (by decide)

/-- C3 counterexample: as returned to the caller, a network failure and a
successfully fetched page with zero matching links are the same value —
the empty candidate list — so extraction does not fail with a result
distinct from the valid zero-candidates one. -/
theorem fetch_error_not_distinct_from_empty :
    (get_product_links (fun s : Soup => s) "https://shop.example/c"
        (.err "connection refused")).links =
      (get_product_links (fun s : Soup => s) "https://shop.example/c"
        (.ok ⟨200, "text/html", some "utf-8", (⟨[], []⟩ : Soup)⟩)).links := by
  decide

/-- C3 amended: on a network error or a 4xx/5xx status,
`get_product_links` displays a fetch-error message but returns the empty
candidate list — the same list a successfully fetched page with zero
matching links yields — so the caller cannot distinguish the two from the
returned value. -/
theorem fetch_error_returns_empty_list {β : Type} (parse : β → Soup) (url msg : String)
    (r : HttpResponse β) (h4 : 400 ≤ r.status) (h6 : r.status < 600) :
    get_product_links parse url (.err msg) = ⟨true, none, []⟩ ∧
    get_product_links parse url (.ok r) = ⟨true, none, []⟩ := by
  refine ⟨rfl, ?_⟩
  simp [get_product_links, h4, h6]

/-- C3 witness: a 404 response and a network error both yield the
error-displayed, empty-list result. -/
theorem fetch_error_returns_empty_list_witness :
    get_product_links (fun s : Soup => s) "https://shop.example/c" (.err "boom") =
      ⟨true, none, []⟩ ∧
    get_product_links (fun s : Soup => s) "https://shop.example/c"
        (.ok ⟨404, "text/html", none, (⟨[], []⟩ : Soup)⟩) = ⟨true, none, []⟩ :=
  fetch_error_returns_empty_list (fun s : Soup => s) "https://shop.example/c" "boom"
    ⟨404, "text/html", none, (⟨[], []⟩ : Soup)⟩ (by decide) (by decide)

/-- C4: whenever the pattern strategy yields at least one candidate, the
result is exactly the sorted deduplicated pattern-strategy set — no
fallback-derived link appears. -/
theorem fallback_only_when_pattern_empty (url : String) (soup : Soup)
    (h : patternLinks url soup ≠ []) :
    detect_product_links url soup = pySortedSet (patternLinks url soup) ∧
    ∀ x ∈ detect_product_links url soup, x ∈ patternLinks url soup := by
  refine ⟨by rw [detect_product_links, if_neg h], fun x hx => ?_⟩
  rw [detect_product_links, if_neg h] at hx
  exact mem_pySortedSet.mp hx

/-- C4 witness: a page with one pattern-matching link and one
fallback-eligible container link yields only the pattern link. -/
theorem fallback_only_when_pattern_empty_witness :
    detect_product_links "https://shop.example/c"
        ⟨[⟨"/products/a", false, "m"⟩], [⟨"product-grid", [⟨"/b", false, "m"⟩]⟩]⟩ =
      pySortedSet (patternLinks "https://shop.example/c"
        ⟨[⟨"/products/a", false, "m"⟩], [⟨"product-grid", [⟨"/b", false, "m"⟩]⟩]⟩) :=
  (fallback_only_when_pattern_empty "https://shop.example/c"
    ⟨[⟨"/products/a", false, "m"⟩], [⟨"product-grid", [⟨"/b", false, "m"⟩]⟩]⟩
    (by decide)).1

/-- Spec-side predicate for C5: no two returned URLs are equal once a
trailing fragment is stripped. -/
def noNormalizedDuplicates (l : List String) : Prop :=
  l.Pairwise (fun a b => stripFragment a ≠ stripFragment b)

/-- C5 counterexample: two links differing only by a trailing `#top`
fragment both survive deduplication, so the returned list does contain two
URLs equal up to trailing-fragment normalization. -/
theorem dedup_misses_fragment_duplicates :
    ¬ noNormalizedDuplicates (detect_product_links "https://shop.example/collections/all"
      ⟨[⟨"https://shop.example/products/alpha", false, "m"⟩,
        ⟨"https://shop.example/products/alpha#top", false, "m"⟩], []⟩) := by
  unfold noNormalizedDuplicates
  decide

/-- C5 amended: deduplication removes exact-URL duplicates only — the
returned candidate list never contains the same URL string twice, but URLs
differing by a trailing fragment (or any other normalization) remain
distinct entries. -/
theorem dedup_exact_urls_only (url : String) (soup : Soup) :
    (detect_product_links url soup).Nodup := by
  rw [detect_product_links]
  split
  · exact nodup_pySortedSet _
  · exact nodup_pySortedSet _

/-- Spec-side predicate for C6: the listing page's own URL never appears
among the returned candidates. -/
def selfLinkExcluded (url : String) (soup : Soup) : Prop :=
  url ∉ detect_product_links url soup

/-- C6 counterexample: under the pattern strategy a link resolving to the
listing page's own URL is returned — only the container fallback branch
filters it out. -/
theorem self_link_not_excluded_by_pattern :
    ¬ selfLinkExcluded "https://shop.example/products/list"
      ⟨[⟨"https://shop.example/products/list", false, "m"⟩], []⟩ := by
  unfold selfLinkExcluded
  decide

/-- C6 amended: only the container-based fallback branch excludes links
resolving to the listing page's own URL; that branch never contributes the
page's own URL, while the pattern strategy (and the image fallback) may. -/
theorem container_branch_excludes_self (url : String) (soup : Soup) :
    url ∉ containerFallbackLinks url soup := by
  intro hmem
  simp only [containerFallbackLinks, List.mem_flatMap, List.mem_filter,
    List.mem_filterMap] at hmem
  obtain ⟨c, _, link, _, heq⟩ := hmem
  split at heq
  · rename_i hcond
    simp only [Bool.and_eq_true, decide_eq_true_eq] at hcond
    exact hcond.2 (Option.some.inj heq)
  · exact Option.noConfusion heq

/-- C7: with more candidates than the cap, exactly `cap` tasks are
dispatched — the first `cap` links in sort order, numbered 1..cap — and
the truncation notice is emitted; otherwise all links are dispatched
unchanged with no notice. In both cases the dispatched URLs are exactly
the truncated list in order. -/
theorem truncation_dispatches_cap (links : List String) (cap : Nat) :
    (links.length > cap →
      (truncateLinks links cap).links = links.take cap ∧
      (dispatchTasks (truncateLinks links cap).links).length = cap ∧
      (dispatchTasks (truncateLinks links cap).links).map Prod.fst = List.range' 1 cap ∧
      (truncateLinks links cap).notice = true) ∧
    (links.length ≤ cap →
      (truncateLinks links cap).links = links ∧
      (dispatchTasks (truncateLinks links cap).links).length = links.length ∧
      (truncateLinks links cap).notice = false) ∧
    (dispatchTasks (truncateLinks links cap).links).map Prod.snd =
      (truncateLinks links cap).links := by
  refine ⟨fun h => ?_, fun h => ?_, ?_⟩
  · have hc : (links.take cap).length = cap := by
      rw [List.length_take]
      exact Nat.min_eq_left (Nat.le_of_lt h)
    rw [truncateLinks, if_pos h]
    exact ⟨rfl, by rw [dispatchTasks, enumerateFrom_length, hc],
      by rw [dispatchTasks, enumerateFrom_map_fst, hc], rfl⟩
  · rw [truncateLinks, if_neg (Nat.not_lt.mpr h)]
    exact ⟨rfl, by rw [dispatchTasks, enumerateFrom_length], rfl⟩
  · rw [dispatchTasks, enumerateFrom_map_snd]

/-- C7 witness: five candidates with cap three dispatch exactly the first
three, numbered 1..3, with the notice emitted. -/
theorem truncation_dispatches_cap_witness :
    (truncateLinks ["a", "b", "c", "d", "e"] 3).links = ["a", "b", "c"] ∧
    (dispatchTasks (truncateLinks ["a", "b", "c", "d", "e"] 3).links).map Prod.fst =
      List.range' 1 3 ∧
    (truncateLinks ["a", "b", "c", "d", "e"] 3).notice = true := by
  have h := (truncation_dispatches_cap ["a", "b", "c", "d", "e"] 3).1 (by decide)
  exact ⟨h.1.trans (by decide), h.2.2.1, h.2.2.2⟩

/-- Spec-side statement for C8: before the merge is invoked, every input
artifact would be checked present and non-empty against the run's
filesystem state `fs`, a missing or empty artifact aborting the merge. -/
def mergeValidatesArtifacts : Prop :=
  ∀ (fs : String → Option Nat) (mergeOk : List String → Bool) (docxOk : Bool)
    (fmt : String) (arrivals : List TaskOutcome),
    (∃ p ∈ mergeInput arrivals, fs p = none ∨ fs p = some 0) →
    (finishBatch mergeOk docxOk fmt arrivals).mergeCalledWith = none

/-- C8 counterexample: the assembler performs no such validation — with a
filesystem in which the lone success path is missing, the merge is still
invoked with that path. -/
theorem no_artifact_validation_before_merge : ¬ mergeValidatesArtifacts := by
  intro h
  have hc := h (fun _ => none) (fun _ => true) true "pdf" [.success 1 "001_product.pdf"]
    ⟨"001_product.pdf", by decide, Or.inl rfl⟩
  have hs : (finishBatch (fun _ => true) true "pdf"
      [TaskOutcome.success 1 "001_product.pdf"]).mergeCalledWith =
      some ["001_product.pdf"] := by decide
  rw [hs] at hc
  exact Option.noConfusion hc

/-- C8 amended: the assembler performs no presence or non-emptiness check:
whenever at least one render succeeded, the remote merge is invoked with
exactly the ordered success paths, regardless of any filesystem state. -/
theorem merge_invoked_without_validation (mergeOk : List String → Bool) (docxOk : Bool)
    (fmt : String) (arrivals : List TaskOutcome)
    (h : (collectResults arrivals).1 ≠ []) :
    (finishBatch mergeOk docxOk fmt arrivals).mergeCalledWith = some (mergeInput arrivals) :=
  finishBatch_merge_some mergeOk docxOk fmt arrivals h

/-- C8 witness: a single-success batch invokes the merge on its path. -/
theorem merge_invoked_without_validation_witness :
    (finishBatch (fun _ => true) true "pdf"
        [.success 1 "001_product.pdf"]).mergeCalledWith =
      some (mergeInput [.success 1 "001_product.pdf"]) :=
  merge_invoked_without_validation (fun _ => true) true "pdf"
    [.success 1 "001_product.pdf"] (by decide)

/-- C9: with at least one failure, the report shows the first ten failure
lines (hence at most ten), and names the count of omitted failures exactly
when there are more than ten, as `length - 10`. -/
theorem failure_preview_capped (failed : List String) (h : failed ≠ []) :
    failureReport failed =
      some ⟨failed.take 10,
        if failed.length > 10 then some (failed.length - 10) else none⟩ ∧
    (failed.take 10).length ≤ 10 := by
  refine ⟨?_, ?_⟩
  · rw [failureReport, if_neg (by simpa [List.isEmpty_iff] using h)]
  · rw [List.length_take]
    exact Nat.min_le_left _ _

/-- C9 witness: a single failure is shown in full with no summary line. -/
theorem failure_preview_capped_witness :
    failureReport ["Product 1: timeout"] = some ⟨["Product 1: timeout"], none⟩ := by
  have h := (failure_preview_capped ["Product 1: timeout"] (by decide)).1
  exact h.trans (by decide)

/-- C10: for fixed response bytes, the candidate list is the same for
every Content-Type header and every header-derived encoding — the euc-kr /
utf-8 selection never influences the parsed links, because the HTML is
parsed from the raw response bytes. -/
theorem charset_noninterference {β : Type} (parse : β → Soup) (url : String)
    (status : Nat) (body : β) (ct₁ ct₂ : String) (eh₁ eh₂ : Option String) :
    (get_product_links parse url (.ok ⟨status, ct₁, eh₁, body⟩)).links =
      (get_product_links parse url (.ok ⟨status, ct₂, eh₂, body⟩)).links := by
  by_cases h : 400 ≤ status ∧ status < 600
  · simp [get_product_links, h]
  · simp [get_product_links, h]

end Web2Docx
